import Mathlib

/-!
Verification development for the neostow symlink manager (src/main.rs).

The source is shallowly embedded: strings are lists of characters, the
filesystem is an association list from (component-wise) paths to nodes,
external effects (the `diff` subprocess and the interactive stdin prompt)
are threaded through an explicit `World` state, and fallible operations
return `Except`-style results.  The `unwrap` panic in `process_line` is
modelled as an explicit `panicked` outcome.  Logging output (the colored
`printfc` sink) is modelled only where observable to the spec: the run
loop records per-line error log entries as `(file, linenum, err)` triples.
-/

namespace Neostow

/-- Strings are modelled as lists of characters (byte/char index
distinctions of UTF-8 are immaterial to the claims). -/
abbrev Str := List Char

/-- Convert a Lean string literal to the `Str` model. -/
def str (s : String) : Str := s.data

/-- Whitespace predicate used by Rust's `str::trim`. -/
def isWs (c : Char) : Bool := c.isWhitespace

/-- Drop trailing whitespace (the right half of `str::trim`): a
character is kept iff something non-whitespace survives after it, or it
is non-whitespace itself. -/
def trimRight : Str → Str
  | [] => []
  | c :: rest =>
    if trimRight rest = [] then (if isWs c then [] else [c])
    else c :: trimRight rest

/-- Rust `str::trim`: strip leading and trailing whitespace. -/
def trim (s : Str) : Str := trimRight (s.dropWhile isWs)

/-- Rust `line.splitn(2, '=')` when it yields two parts: the text before
the first `'='` and the whole remainder after it.  `none` when the line
has no `'='` (`splitn` then yields a single part). -/
def splitFirstEq : Str → Option (Str × Str)
  | [] => none
  | c :: rest =>
    if c = '=' then some ([], rest)
    else (splitFirstEq rest).map (fun p => (c :: p.1, p.2))

/-- Rust `String::replace`: replace every (leftmost, non-overlapping)
occurrence of `pat` by `repl`.  Implemented with a fuel argument (one
unit per consumed character) so that it reduces structurally; the
wrapper supplies enough fuel for any input. -/
def replaceAllF : Nat → Str → Str → Str → Str
  | 0, _, _, s => s
  | fuel + 1, pat, repl, s =>
    match s with
    | [] => []
    | c :: rest =>
      if pat ≠ [] ∧ pat.isPrefixOf (c :: rest) then
        repl ++ replaceAllF fuel pat repl ((c :: rest).drop pat.length)
      else
        c :: replaceAllF fuel pat repl rest

def replaceAll (pat repl s : Str) : Str := replaceAllF (s.length + 1) pat repl s

/-- Rust `String::replacen(pat, repl, 1)`: replace only the first
occurrence of `pat`. -/
def replaceFirst (pat repl : Str) : Str → Str
  | [] => []
  | c :: rest =>
    if pat ≠ [] ∧ pat.isPrefixOf (c :: rest) then
      repl ++ (c :: rest).drop pat.length
    else
      c :: replaceFirst pat repl rest

/-- Does `pat` occur as a contiguous substring of `s`? -/
def hasSub (pat : Str) : Str → Bool
  | [] => pat.isEmpty
  | c :: rest => pat.isPrefixOf (c :: rest) || hasSub pat rest

/-- One path component, following Rust `Path::components` (the claims do
not exercise `.` components, which `components` elides): either a normal
name or a `..` parent-directory component. -/
inductive PComp where
  | parentDir : PComp
  | normal : Str → PComp
deriving DecidableEq, Repr

/-- A path: an absolute flag plus its components, unresolved (`..` is
kept, as in Rust `Path`, where `file_name` sees it). -/
structure RPath where
  absolute : Bool
  comps : List PComp
deriving DecidableEq, Repr

/-- Parse a string into a path: a leading `/` makes it absolute; empty
and `.` segments are elided; `..` becomes a parent-dir component. -/
def parseRPath (s : Str) : RPath :=
  { absolute := s.head? = some '/'
    comps := (s.splitOn '/').filterMap fun seg =>
      if seg = [] ∨ seg = ['.'] then none
      else if seg = ['.', '.'] then some PComp.parentDir
      else some (PComp.normal seg) }

/-- Rust `Path::join`: an absolute right-hand side replaces the left. -/
def RPath.join (p q : RPath) : RPath :=
  if q.absolute then q else ⟨p.absolute, p.comps ++ q.comps⟩

/-- Rust `Path::file_name`: the last component if it is a normal name;
`none` when the path ends in `..` or has no components. -/
def RPath.fileName (p : RPath) : Option Str :=
  match p.comps.getLast? with
  | some (PComp.normal s) => some s
  | _ => none

/-- Rust `Path::parent`: drop the last component; `none` at a root or
empty path. -/
def RPath.parent (p : RPath) : Option RPath :=
  match p.comps with
  | [] => none
  | _ => some ⟨p.absolute, p.comps.dropLast⟩

/-- Resolve `..` components the way the kernel's path walk does (a `..`
cancels a preceding normal component; at an absolute root it vanishes). -/
def normComps (absolute : Bool) : List PComp → List PComp → List PComp
  | acc, [] => acc
  | acc, PComp.normal s :: rest => normComps absolute (acc ++ [PComp.normal s]) rest
  | acc, PComp.parentDir :: rest =>
    match acc.getLast? with
    | some (PComp.normal _) => normComps absolute acc.dropLast rest
    | _ =>
      if absolute then normComps absolute acc rest
      else normComps absolute (acc ++ [PComp.parentDir]) rest

/-- The canonical form of a path used as a filesystem key. -/
def normPath (p : RPath) : RPath := ⟨p.absolute, normComps p.absolute [] p.comps⟩

/-- A filesystem node: regular file with content, directory, or symlink
with its stored (unresolved) target path. -/
inductive Node where
  | file : Str → Node
  | dir : Node
  | symlink : RPath → Node
deriving DecidableEq, Repr

/-- Is this node a symlink (Rust `file_type().is_symlink()`)? -/
def nodeIsSymlink : Node → Bool
  | Node.symlink _ => true
  | _ => false

/-- The filesystem: an association list from canonical paths to nodes.
Entries live at `lstat` level (a symlink is its own entry). -/
abbrev Fs := List (RPath × Node)

/-- `lstat`-level lookup: the node stored at the path itself, without
following a final symlink. -/
def fsLookup (fs : Fs) (p : RPath) : Option Node :=
  (fs.find? (fun e => decide (e.1 = normPath p))).map (·.2)

/-- `stat` with fuel: follow a final symlink chain; a cycle exhausts the
fuel and behaves like `ELOOP` (no metadata, path treated as absent). -/
def statN : Nat → Fs → RPath → Option Node
  | 0, _, _ => none
  | fuel + 1, fs, p =>
    match fsLookup fs p with
    | some (Node.symlink t) => statN fuel fs t
    | some n => some n
    | none => none

/-- `stat`: follow symlinks with enough fuel for any acyclic chain. -/
def stat (fs : Fs) (p : RPath) : Option Node := statN (fs.length + 1) fs p

/-- Rust `Path::exists`: `stat` succeeds (symlinks followed, so a
dangling symlink does NOT exist). -/
def fsExists (fs : Fs) (p : RPath) : Bool := (stat fs p).isSome

/-- Rust `Path::is_dir`: `stat` resolves to a directory. -/
def fsIsDir (fs : Fs) (p : RPath) : Bool :=
  match stat fs p with
  | some Node.dir => true
  | _ => false

/-- Remove the entry stored at a path (`fs::remove_file`: unlinks the
node itself, a symlink included, never its target). -/
def fsErase (fs : Fs) (p : RPath) : Fs :=
  fs.filter (fun e => decide (e.1 ≠ normPath p))

/-- Rust `fs::remove_dir_all`: `lstat` first — a symlink is unlinked
itself; otherwise the path and everything below it is removed. -/
def removeDirAll (fs : Fs) (p : RPath) : Fs :=
  match fsLookup fs p with
  | some (Node.symlink _) => fsErase fs p
  | _ =>
    let q := normPath p
    fs.filter (fun e =>
      !(decide (e.1.absolute = q.absolute) && q.comps.isPrefixOf e.1.comps))

/-- Modelled I/O errors, one constructor per failure source the claims
exercise. -/
inductive IOErr where
  | eexist : IOErr
  | spawnFail : IOErr
  | stdinFail : IOErr
  | mkdirFail : IOErr
  | metadataFail : IOErr
  | readFail : IOErr
deriving DecidableEq, Repr

/-- `std::os::unix::fs::symlink(src, dest)`: fails with `EEXIST` when
anything (a dangling symlink included) already occupies `dest` at
`lstat` level; otherwise records the link with its stored target. -/
def symlinkFs (fs : Fs) (src dest : RPath) : Except IOErr Fs :=
  match fsLookup fs dest with
  | some _ => Except.error IOErr.eexist
  | none => Except.ok ((normPath dest, Node.symlink src) :: fs)

/-- Rust `fs::create_dir_all`: succeeds if the path already resolves to
a directory, fails if something non-directory occupies it, creates it
otherwise.  (Intermediate ancestors are not tracked; the filesystem
primitives are assumed-correct collaborators per the spec's scope.) -/
def createDirAll (fs : Fs) (p : RPath) : Except IOErr Fs :=
  match stat fs p with
  | some Node.dir => Except.ok fs
  | some _ => Except.error IOErr.mkdirFail
  | none =>
    match fsLookup fs p with
    | some _ => Except.error IOErr.mkdirFail
    | none => Except.ok ((normPath p, Node.dir) :: fs)

/-- Entries of the subtree rooted at `p`, rebased to it — used to model
the recursive content diff over directories. -/
def subtreeEntries (fs : Fs) (p : RPath) : List (List PComp × Node) :=
  let q := normPath p
  fs.filterMap fun e =>
    if e.1.absolute = q.absolute ∧ q.comps.isPrefixOf e.1.comps then
      some (e.1.comps.drop q.comps.length, e.2)
    else none

/-- The assumed-correct content-comparison collaborator (`diff` exit
status 0): equal file contents, or (recursively) equal directory trees;
anything else differs. -/
def diffIdentical (fs : Fs) (a b : RPath) : Bool :=
  match stat fs a, stat fs b with
  | some (Node.file x), some (Node.file y) => x == y
  | some Node.dir, some Node.dir =>
    let sa := subtreeEntries fs a
    let sb := subtreeEntries fs b
    sa.all (fun e => decide (e ∈ sb)) && sb.all (fun e => decide (e ∈ sa))
  | _, _ => false

/-- The reconciliation mode (run-wide). -/
inductive Mode where
  | create : Mode
  | overwrite : Mode
  | delete : Mode
deriving DecidableEq, Repr

/-- Run-wide configuration; `env` stands for the process environment
consumed by `expand_path`, `file` for the manifest path used in log
entries. -/
structure Config where
  file : Str
  basedir : RPath
  mode : Mode
  verbose : Bool
  force : Bool
  dry : Bool
  debug : Bool
  env : List (Str × Str)

/-- The external world: the pending stdin reads (one per `read_line`,
each a read failure or a line of input) and whether launching the `diff`
subprocess succeeds. -/
structure World where
  stdin : List (Except IOErr Str)
  diffOk : Bool

/-- First-match environment lookup (`env::var`). -/
def lookupEnv (env : List (Str × Str)) (k : Str) : Option Str :=
  match env with
  | [] => none
  | kv :: rest => if kv.1 = k then some kv.2 else lookupEnv rest k

/-- `expand_path` (src/main.rs:172-184): fold all environment variables
through `String::replace` of `$KEY`, then expand a leading `~` to
`$HOME` (first occurrence only) when `HOME` is set. -/
def expand_path (env : List (Str × Str)) (raw : Str) : Str :=
  let replaced := env.foldl (fun acc kv => replaceAll ('$' :: kv.1) kv.2 acc) raw
  if replaced.head? = some '~' then
    match lookupEnv env (str "HOME") with
    | some home => replaceFirst ['~'] home replaced
    | none => replaced
  else replaced

/-- `prompt_user` (src/main.rs:280-285): read one stdin line (an empty
pending list models EOF, where `read_line` succeeds with no bytes);
a read failure propagates as an error; otherwise answer yes exactly for
trimmed, lowercased `y` or `yes`. -/
def isYes (s : Str) : Bool :=
  (trim s).map Char.toLower == str "y" || (trim s).map Char.toLower == str "yes"

def prompt_user (w : World) : Except IOErr Bool × World :=
  match w.stdin with
  | [] => (Except.ok false, w)
  | Except.error e :: rest => (Except.error e, ⟨rest, w.diffOk⟩)
  | Except.ok s :: rest => (Except.ok (isYes s), ⟨rest, w.diffOk⟩)

/-- `run_diff` (src/main.rs:287-300): spawn `diff` (may fail), return
`true` (prompt warranted) when the contents differ. -/
def run_diff (w : World) (fs : Fs) (src dest : RPath) (is_dir : Bool) : Except IOErr Bool :=
  if w.diffOk then Except.ok (!diffIdentical fs src dest) else Except.error IOErr.spawnFail

/-- Result of `create_symlink`: the returned `io::Result<bool>` plus the
filesystem and world it leaves behind. -/
inductive CsOut where
  | ok : Fs → World → Bool → CsOut
  | err : IOErr → Fs → World → CsOut

/-- The conflict-check phase of `create_symlink` (src/main.rs:98-111):
either an early exit (user declined, or an I/O error) or continuation
with the world after any prompt. -/
inductive Phase where
  | early : CsOut → Phase
  | cont : World → Phase

def overwriteGate (cfg : Config) (src dest : RPath) (is_dir : Bool) (fs : Fs) (w : World) :
    Phase :=
  if fsExists fs dest then
    match fsLookup fs dest with
    | none => Phase.early (CsOut.err IOErr.metadataFail fs w)
    | some n =>
      if !nodeIsSymlink n ∧ cfg.mode = Mode.overwrite then
        match run_diff w fs src dest is_dir with
        | Except.error e => Phase.early (CsOut.err e fs w)
        | Except.ok doPrompt =>
          if doPrompt ∧ !cfg.force then
            match prompt_user w with
            | (Except.error e, w') => Phase.early (CsOut.err e fs w')
            | (Except.ok true, w') => Phase.cont w'
            | (Except.ok false, w') => Phase.early (CsOut.ok fs w' false)
          else Phase.cont w
      else Phase.cont w
  else Phase.cont w

/-- The removal block shared by the Delete and Overwrite arms
(src/main.rs:119-125 and 133-139): `if dest.exists()` remove it,
directory-aware; otherwise leave the filesystem untouched. -/
def removeExisting (fs : Fs) (dest : RPath) : Fs :=
  if fsExists fs dest then
    if fsIsDir fs dest then removeDirAll fs dest else fsErase fs dest
  else fs

/-- The per-mode dispatch of `create_symlink` (src/main.rs:113-169).
Note the Delete arm falls through to `Ok(true)` whether or not the
destination existed. -/
def modeDispatch (cfg : Config) (src dest : RPath) (fs : Fs) (w : World) : CsOut :=
  match cfg.mode with
  | Mode.delete =>
    if cfg.dry then CsOut.ok fs w false
    else CsOut.ok (removeExisting fs dest) w true
  | Mode.overwrite =>
    if cfg.dry then CsOut.ok fs w false
    else
      match symlinkFs (removeExisting fs dest) src dest with
      | Except.error e => CsOut.err e (removeExisting fs dest) w
      | Except.ok fs2 => CsOut.ok fs2 w true
  | Mode.create =>
    if cfg.dry then CsOut.ok fs w false
    else
      match symlinkFs fs src dest with
      | Except.error e => CsOut.err e fs w
      | Except.ok fs2 => CsOut.ok fs2 w true

/-- `create_symlink` (src/main.rs:97-170). -/
def create_symlink (cfg : Config) (src dest : RPath) (is_dir : Bool) (fs : Fs) (w : World) :
    CsOut :=
  match overwriteGate cfg src dest is_dir fs w with
  | Phase.early o => o
  | Phase.cont w' => modeDispatch cfg src dest fs w'

/-- The inline-comment truncation of `process_line`
(src/main.rs:192-196): cut at the first `#` when its position is
after 0, re-trimming the kept part. -/
def truncLine (t : Str) : Str :=
  match t.findIdx? (fun c => c == '#') with
  | some i => if 0 < i then trim (t.take i) else t
  | none => t

/-- Line-level parsing inside `process_line` (src/main.rs:186-206),
applied to the already-trimmed line: skip empty and `#`-initial lines;
truncate at an inline `#` after position 0 (re-trimming); split at the
first `=`, trimming both parts; no `=` yields nothing. -/
def parseTrimmed (t : Str) : Option (Str × Str) :=
  if t.isEmpty || (t.head? == some '#') then none
  else
    if (truncLine t).isEmpty then none
    else
      match splitFirstEq (truncLine t) with
      | some (a, b) => some (trim a, trim b)
      | none => none

/-- Line-level parsing inside `process_line` (src/main.rs:186-206). -/
def parse_line (line : Str) : Option (Str × Str) := parseTrimmed (trim line)

/-- Outcome of one `process_line` call: the returned `io::Result<()>`
with the `performed` flag folded in (the operations increment), an
error, or the `unwrap` panic — each carrying the filesystem and world
state at that point. -/
inductive LineOut where
  | ok : Fs → World → Bool → LineOut
  | err : IOErr → Fs → World → LineOut
  | panicked : Fs → World → LineOut

/-- The parent-directory step of `process_line` (src/main.rs:230-234):
`create_dir_all` on `dest.parent()`, skipped in dry-run. -/
def mkParent (cfg : Config) (fs : Fs) (dest : RPath) : Except IOErr Fs :=
  match dest.parent with
  | some par => if cfg.dry then Except.ok fs else createDirAll fs par
  | none => Except.ok fs

/-- Repackage a `create_symlink` outcome as a `process_line` outcome
(the `?` propagation and `success` flag handling, src/main.rs:236-251). -/
def csToLine : CsOut → LineOut
  | CsOut.ok fs2 w2 performed => LineOut.ok fs2 w2 performed
  | CsOut.err e fs2 w2 => LineOut.err e fs2 w2

/-- The tail of `process_line` (src/main.rs:230-253): ensure the parent
directory, then call `create_symlink`, propagating its error. -/
def reconcile (cfg : Config) (fs : Fs) (w : World) (src dest : RPath) (isDir : Bool) :
    LineOut :=
  match mkParent cfg fs dest with
  | Except.error e => LineOut.err e fs w
  | Except.ok fs1 => csToLine (create_symlink cfg src dest isDir fs1 w)

/-- `process_line` after a successful parse (src/main.rs:207-253):
compute `source`, skip when it does not exist, compute
`dest = expand(dest_template) / file_name(source)` — panicking when
`file_name` is `None` — and reconcile. -/
def processEntry (cfg : Config) (fs : Fs) (w : World) (p0 p1 : Str) : LineOut :=
  if fsExists fs (cfg.basedir.join (parseRPath p0)) then
    match (cfg.basedir.join (parseRPath p0)).fileName with
    | none => LineOut.panicked fs w
    | some name =>
      reconcile cfg fs w (cfg.basedir.join (parseRPath p0))
        ⟨(parseRPath (expand_path cfg.env p1)).absolute,
         (parseRPath (expand_path cfg.env p1)).comps ++ [PComp.normal name]⟩
        (fsIsDir fs (cfg.basedir.join (parseRPath p0)))
  else LineOut.ok fs w false

/-- `process_line` (src/main.rs:186-254). -/
def process_line (cfg : Config) (fs : Fs) (w : World) (line : Str) : LineOut :=
  match parse_line line with
  | none => LineOut.ok fs w false
  | some (p0, p1) => processEntry cfg fs w p0 p1

/-- Outcome of a whole run: completed, aborted by a manifest-line read
error (the `line?` in `run`), or the process panicked — each carrying
the final filesystem, world, operation count, and error log. -/
inductive RunOut where
  | done : Fs → World → Nat → List (Str × Nat × IOErr) → RunOut
  | ioerr : Fs → World → Nat → List (Str × Nat × IOErr) → IOErr → RunOut
  | panicked : Fs → World → Nat → List (Str × Nat × IOErr) → RunOut

def RunOut.finalFs : RunOut → Fs
  | RunOut.done fs _ _ _ => fs
  | RunOut.ioerr fs _ _ _ _ => fs
  | RunOut.panicked fs _ _ _ => fs

def RunOut.finalOps : RunOut → Nat
  | RunOut.done _ _ ops _ => ops
  | RunOut.ioerr _ _ ops _ _ => ops
  | RunOut.panicked _ _ ops _ => ops

def RunOut.aborted : RunOut → Bool
  | RunOut.ioerr _ _ _ _ _ => true
  | _ => false

/-- The loop body of `run` (src/main.rs:256-269): 1-indexed line
numbers; a line-read failure (`line?`) returns the error from `run`
immediately; a `process_line` error is logged as
`(manifest-path, linenum, err)` and the loop continues. -/
def runLoop (cfg : Config) :
    List (Except IOErr Str) → Nat → Fs → World → Nat → List (Str × Nat × IOErr) → RunOut
  | [], _, fs, w, ops, log => RunOut.done fs w ops log
  | l :: rest, n, fs, w, ops, log =>
    match l with
    | Except.error e => RunOut.ioerr fs w ops log e
    | Except.ok s =>
      match process_line cfg fs w s with
      | LineOut.ok fs' w' performed =>
        runLoop cfg rest (n + 1) fs' w' (ops + (if performed then 1 else 0)) log
      | LineOut.err e fs' w' =>
        runLoop cfg rest (n + 1) fs' w' ops (log ++ [(cfg.file, n + 1, e)])
      | LineOut.panicked fs' w' => RunOut.panicked fs' w' ops log

/-- `run` (src/main.rs:256-269) over the manifest's line reads. -/
def run (cfg : Config) (lines : List (Except IOErr Str)) (fs : Fs) (w : World) : RunOut :=
  runLoop cfg lines 0 fs w 0 []

/-- The spec's truncation rule, in its words: "If a `#` occurs after
position 0, truncate the line at that position (trim result)". -/
def truncSpec (t : Str) : Str :=
  match t.findIdx? (fun c => c == '#') with
  | some i => if 0 < i then trim (t.take i) else t
  | none => t

/-- `parse_line` restated from the spec's words, over the trimmed line:
an entry results iff, after truncating at an inline `#` occurring after
position 0 (trimming the result), the line is non-empty, does not start
with `#`, and contains an `=`; its fields are the trimmed substrings on
either side of the first `=` of the truncated line. -/
def parse_line_spec_core (t0 : Str) : Option (Str × Str) :=
  if truncSpec t0 ≠ [] ∧ (truncSpec t0).head? ≠ some '#' ∧ '=' ∈ truncSpec t0 then
    some (trim ((truncSpec t0).takeWhile (fun c => !(c == '='))),
          trim (((truncSpec t0).dropWhile (fun c => !(c == '='))).drop 1))
  else none

/-- The spec's parsing contract for a raw manifest line: trim, then
apply the truncation/shape rule above. -/
def parse_line_spec (line : Str) : Option (Str × Str) :=
  parse_line_spec_core (trim line)

/-! ### Concrete fixtures for counterexamples and witnesses -/

/-- The absolute root path `/`. -/
def rootP : RPath := ⟨true, []⟩

/-- The path `/a` (a source file in the fixtures). -/
def srcA : RPath := ⟨true, [PComp.normal (str "a")]⟩

/-- The path `/d` (a destination directory in the fixtures). -/
def dirD : RPath := ⟨true, [PComp.normal (str "d")]⟩

/-- The path `/d/a` (the computed destination in the fixtures). -/
def destDA : RPath := ⟨true, [PComp.normal (str "d"), PComp.normal (str "a")]⟩

/-- A Delete-mode, non-dry configuration rooted at `/`. -/
def cfgDel : Config :=
  ⟨str ".neostow", rootP, Mode.delete, false, false, false, false, []⟩

/-- An Overwrite-mode, dry-run configuration rooted at `/`. -/
def cfgOwDry : Config :=
  ⟨str ".neostow", rootP, Mode.overwrite, false, false, true, false, []⟩

/-- An Overwrite-mode, non-dry, non-force configuration rooted at `/`. -/
def cfgOw : Config :=
  ⟨str ".neostow", rootP, Mode.overwrite, false, false, false, false, []⟩

/-- A Create-mode, non-dry configuration rooted at `/`. -/
def cfgCr : Config :=
  ⟨str ".neostow", rootP, Mode.create, false, false, false, false, []⟩

/-- Fixture filesystem: `/d` a directory, `/a` a file; no destination. -/
def fsNoDest : Fs := [(dirD, Node.dir), (srcA, Node.file (str "x"))]

/-- Fixture filesystem: additionally `/d/a` is a dangling symlink. -/
def fsDangling : Fs :=
  [(destDA, Node.symlink ⟨true, [PComp.normal (str "nowhere")]⟩),
   (dirD, Node.dir), (srcA, Node.file (str "x"))]

/-- Fixture filesystem: `/d/a` is a regular file differing from `/a`. -/
def fsConflict : Fs :=
  [(destDA, Node.file (str "y")), (dirD, Node.dir), (srcA, Node.file (str "x"))]

/-- A world with no pending stdin and a working `diff`. -/
def wQuiet : World := ⟨[], true⟩

/-! ### State projections -/

def CsOut.fsOf : CsOut → Fs
  | CsOut.ok fs _ _ => fs
  | CsOut.err _ fs _ => fs

def CsOut.performedOf : CsOut → Bool
  | CsOut.ok _ _ p => p
  | CsOut.err _ _ _ => false

def LineOut.fsOf : LineOut → Fs
  | LineOut.ok fs _ _ => fs
  | LineOut.err _ fs _ => fs
  | LineOut.panicked fs _ => fs

def LineOut.performedOf : LineOut → Bool
  | LineOut.ok _ _ p => p
  | _ => false

def LineOut.isErr : LineOut → Bool
  | LineOut.err _ _ _ => true
  | _ => false

def exceptIsOk : Except IOErr Str → Bool
  | Except.ok _ => true
  | Except.error _ => false

/-! ### Filesystem lemmas -/

lemma lookup_none_stat {fs : Fs} {p : RPath} (h : fsLookup fs p = none) :
    stat fs p = none := by
  unfold stat
  simp only [statN]
  rw [h]

lemma fsExists_true_lookup {fs : Fs} {p : RPath} (h : fsExists fs p = true) :
    ∃ n, fsLookup fs p = some n := by
  cases hl : fsLookup fs p with
  | none =>
    exfalso
    unfold fsExists at h
    rw [lookup_none_stat hl] at h
    simp at h
  | some n => exact ⟨n, rfl⟩

lemma stat_lookup_nonsymlink {fs : Fs} {p : RPath} {n : Node}
    (h : fsLookup fs p = some n) (hs : nodeIsSymlink n = false) :
    stat fs p = some n := by
  unfold stat
  simp only [statN]
  rw [h]
  cases n with
  | file c => rfl
  | dir => rfl
  | symlink t => simp [nodeIsSymlink] at hs

lemma fsLookup_fsErase (fs : Fs) (p : RPath) : fsLookup (fsErase fs p) p = none := by
  unfold fsLookup fsErase
  rw [List.find?_eq_none.mpr]
  · rfl
  · intro x hx
    have hne := (List.mem_filter.mp hx).2
    simp only [decide_eq_true_eq] at hne ⊢
    exact hne

lemma mem_fsErase {fs : Fs} {p : RPath} {x : RPath × Node} (h : x ∈ fsErase fs p) :
    x ∈ fs := (List.mem_filter.mp h).1

lemma mem_removeDirAll {fs : Fs} {p : RPath} {x : RPath × Node}
    (h : x ∈ removeDirAll fs p) : x ∈ fs := by
  unfold removeDirAll at h
  split at h
  · exact mem_fsErase h
  · exact (List.mem_filter.mp h).1

lemma removeDirAll_symlink {fs : Fs} {p : RPath} {t : RPath}
    (h : fsLookup fs p = some (Node.symlink t)) :
    removeDirAll fs p = fsErase fs p := by
  unfold removeDirAll
  rw [h]

lemma removeExisting_stat_none {fs : Fs} {dest : RPath} (hs : stat fs dest = none) :
    removeExisting fs dest = fs := by
  have he : fsExists fs dest = false := by
    unfold fsExists
    rw [hs]
    rfl
  unfold removeExisting
  simp [he]

lemma removeExisting_symlink {fs : Fs} {dest t : RPath}
    (hl : fsLookup fs dest = some (Node.symlink t)) (he : fsExists fs dest = true) :
    removeExisting fs dest = fsErase fs dest := by
  unfold removeExisting
  rw [he]
  by_cases hdir : fsIsDir fs dest = true
  · simp [hdir, removeDirAll_symlink hl]
  · have h2 : fsIsDir fs dest = false := by simpa using hdir
    simp [h2]

lemma mem_removeExisting {fs : Fs} {dest : RPath} {x : RPath × Node}
    (hx : x ∈ removeExisting fs dest) : x ∈ fs := by
  unfold removeExisting at hx
  by_cases he : fsExists fs dest = true
  · rw [he] at hx
    by_cases hdir : fsIsDir fs dest = true
    · rw [hdir] at hx
      exact mem_removeDirAll hx
    · have h2 : fsIsDir fs dest = false := by simpa using hdir
      rw [h2] at hx
      exact mem_fsErase hx
  · have h2 : fsExists fs dest = false := by simpa using he
    rw [h2] at hx
    exact hx

/-! ### Lemmas about the phases of `create_symlink` -/

lemma overwriteGate_early {cfg : Config} {src dest : RPath} {is_dir : Bool}
    {fs : Fs} {w : World} {o : CsOut}
    (h : overwriteGate cfg src dest is_dir fs w = Phase.early o) :
    o.fsOf = fs ∧ o.performedOf = false := by
  unfold overwriteGate at h
  repeat' split at h
  all_goals (cases h <;> exact ⟨rfl, rfl⟩)

lemma modeDispatch_dry {cfg : Config} (src dest : RPath) (fs : Fs) (w : World)
    (hd : cfg.dry = true) :
    modeDispatch cfg src dest fs w = CsOut.ok fs w false := by
  unfold modeDispatch
  cases hm : cfg.mode <;> simp [hd]

lemma create_symlink_dry {cfg : Config} (src dest : RPath) (is_dir : Bool)
    (fs : Fs) (w : World) (hd : cfg.dry = true) :
    (create_symlink cfg src dest is_dir fs w).fsOf = fs ∧
      (create_symlink cfg src dest is_dir fs w).performedOf = false := by
  unfold create_symlink
  cases hg : overwriteGate cfg src dest is_dir fs w with
  | early o => exact overwriteGate_early hg
  | cont w' =>
    show (modeDispatch cfg src dest fs w').fsOf = fs ∧
      (modeDispatch cfg src dest fs w').performedOf = false
    rw [modeDispatch_dry src dest fs w' hd]
    exact ⟨rfl, rfl⟩

lemma create_symlink_dry_not_ow {cfg : Config} (src dest : RPath) (is_dir : Bool)
    (fs : Fs) (w : World) (hd : cfg.dry = true) (hm : cfg.mode ≠ Mode.overwrite) :
    create_symlink cfg src dest is_dir fs w = CsOut.ok fs w false := by
  unfold create_symlink overwriteGate
  by_cases he : fsExists fs dest
  · obtain ⟨n, hn⟩ := fsExists_true_lookup he
    rw [he]
    simp only [if_true, hn, hm]
    simp [modeDispatch_dry src dest fs w hd]
  · simp only [he]
    simp [modeDispatch_dry src dest fs w hd]

lemma delete_missing_dest {cfg : Config} (src dest : RPath) (is_dir : Bool)
    (fs : Fs) (w : World)
    (hm : cfg.mode = Mode.delete) (hd : cfg.dry = false) (hs : stat fs dest = none) :
    create_symlink cfg src dest is_dir fs w = CsOut.ok fs w true := by
  have he : fsExists fs dest = false := by
    unfold fsExists
    rw [hs]
    rfl
  unfold create_symlink overwriteGate
  simp [he, modeDispatch, hm, hd, removeExisting_stat_none hs]

lemma mkParent_dry {cfg : Config} (fs : Fs) (dest : RPath) (hd : cfg.dry = true) :
    mkParent cfg fs dest = Except.ok fs := by
  unfold mkParent
  cases dest.parent <;> simp [hd]

lemma csToLine_fsOf (r : CsOut) : (csToLine r).fsOf = r.fsOf := by
  cases r <;> rfl

lemma csToLine_performedOf (r : CsOut) : (csToLine r).performedOf = r.performedOf := by
  cases r <;> rfl

lemma reconcile_dry {cfg : Config} (fs : Fs) (w : World) (src dest : RPath)
    (isDir : Bool) (hd : cfg.dry = true) :
    (reconcile cfg fs w src dest isDir).fsOf = fs ∧
      (reconcile cfg fs w src dest isDir).performedOf = false := by
  unfold reconcile
  rw [mkParent_dry fs dest hd]
  show (csToLine (create_symlink cfg src dest isDir fs w)).fsOf = fs ∧
    (csToLine (create_symlink cfg src dest isDir fs w)).performedOf = false
  rw [csToLine_fsOf, csToLine_performedOf]
  exact create_symlink_dry src dest isDir fs w hd

lemma processEntry_dry {cfg : Config} (fs : Fs) (w : World) (p0 p1 : Str)
    (hd : cfg.dry = true) :
    (processEntry cfg fs w p0 p1).fsOf = fs ∧
      (processEntry cfg fs w p0 p1).performedOf = false := by
  unfold processEntry
  by_cases he : fsExists fs (cfg.basedir.join (parseRPath p0)) = true
  · rw [he]
    cases hn : (cfg.basedir.join (parseRPath p0)).fileName with
    | none => exact ⟨rfl, rfl⟩
    | some name => exact reconcile_dry fs w _ _ _ hd
  · have he' : fsExists fs (cfg.basedir.join (parseRPath p0)) = false := by
      simpa using he
    rw [he']
    exact ⟨rfl, rfl⟩

lemma process_line_dry (cfg : Config) (fs : Fs) (w : World) (line : Str)
    (hd : cfg.dry = true) :
    (process_line cfg fs w line).fsOf = fs ∧
      (process_line cfg fs w line).performedOf = false := by
  unfold process_line
  cases hp : parse_line line with
  | none => exact ⟨rfl, rfl⟩
  | some pq =>
    obtain ⟨p0, p1⟩ := pq
    exact processEntry_dry fs w p0 p1 hd

lemma reconcile_dry_not_ow {cfg : Config} (fs : Fs) (w : World) (src dest : RPath)
    (isDir : Bool) (hd : cfg.dry = true) (hm : cfg.mode ≠ Mode.overwrite) :
    reconcile cfg fs w src dest isDir = LineOut.ok fs w false := by
  unfold reconcile
  rw [mkParent_dry fs dest hd]
  show csToLine (create_symlink cfg src dest isDir fs w) = LineOut.ok fs w false
  rw [create_symlink_dry_not_ow src dest isDir fs w hd hm]
  rfl

lemma processEntry_dry_not_ow {cfg : Config} (fs : Fs) (w : World) (p0 p1 : Str)
    (hd : cfg.dry = true) (hm : cfg.mode ≠ Mode.overwrite) :
    (processEntry cfg fs w p0 p1).isErr = false := by
  unfold processEntry
  by_cases he : fsExists fs (cfg.basedir.join (parseRPath p0)) = true
  · rw [he]
    cases hn : (cfg.basedir.join (parseRPath p0)).fileName with
    | none => rfl
    | some name =>
      show (reconcile cfg fs w (cfg.basedir.join (parseRPath p0))
        ⟨(parseRPath (expand_path cfg.env p1)).absolute,
         (parseRPath (expand_path cfg.env p1)).comps ++ [PComp.normal name]⟩
        (fsIsDir fs (cfg.basedir.join (parseRPath p0)))).isErr = false
      rw [reconcile_dry_not_ow fs w _ _ _ hd hm]
      rfl
  · have he' : fsExists fs (cfg.basedir.join (parseRPath p0)) = false := by
      simpa using he
    rw [he']
    rfl

lemma delete_symlink_removed {cfg : Config} (src dest : RPath) (is_dir : Bool)
    (fs : Fs) (w : World) (t : RPath)
    (hm : cfg.mode = Mode.delete) (hd : cfg.dry = false)
    (hl : fsLookup fs dest = some (Node.symlink t)) (he : fsExists fs dest = true) :
    create_symlink cfg src dest is_dir fs w = CsOut.ok (fsErase fs dest) w true := by
  have hgate : overwriteGate cfg src dest is_dir fs w = Phase.cont w := by
    unfold overwriteGate
    rw [he, hl]
    simp [nodeIsSymlink]
  unfold create_symlink
  rw [hgate]
  show modeDispatch cfg src dest fs w = CsOut.ok (fsErase fs dest) w true
  unfold modeDispatch
  rw [hm, hd]
  simp [removeExisting_symlink hl he]

lemma modeDispatch_delete_subset (cfg : Config) (src dest : RPath) (fs : Fs) (w : World)
    (hm : cfg.mode = Mode.delete) (x : RPath × Node)
    (hx : x ∈ (modeDispatch cfg src dest fs w).fsOf) : x ∈ fs := by
  unfold modeDispatch at hx
  rw [hm] at hx
  by_cases hd : cfg.dry = true
  · rw [hd] at hx
    exact hx
  · have hd' : cfg.dry = false := by simpa using hd
    rw [hd'] at hx
    exact mem_removeExisting hx

lemma create_symlink_delete_subset (cfg : Config) (src dest : RPath) (is_dir : Bool)
    (fs : Fs) (w : World) (hm : cfg.mode = Mode.delete) (x : RPath × Node)
    (hx : x ∈ (create_symlink cfg src dest is_dir fs w).fsOf) : x ∈ fs := by
  unfold create_symlink at hx
  cases hg : overwriteGate cfg src dest is_dir fs w with
  | early o =>
    rw [hg] at hx
    have hx' : x ∈ o.fsOf := hx
    rw [(overwriteGate_early hg).1] at hx'
    exact hx'
  | cont w' =>
    rw [hg] at hx
    have hx' : x ∈ (modeDispatch cfg src dest fs w').fsOf := hx
    exact modeDispatch_delete_subset cfg src dest fs w' hm x hx'

lemma modeDispatch_ow_nonsym {cfg : Config} (src dest : RPath) (fs : Fs) (w : World)
    (hm : cfg.mode = Mode.overwrite) (hd : cfg.dry = false)
    (hnd : fsIsDir fs dest = false) (hex : fsExists fs dest = true) :
    modeDispatch cfg src dest fs w =
      CsOut.ok ((normPath dest, Node.symlink src) :: fsErase fs dest) w true := by
  have hre : removeExisting fs dest = fsErase fs dest := by
    unfold removeExisting
    rw [hex, hnd]
    rfl
  have hsym : symlinkFs (fsErase fs dest) src dest =
      Except.ok ((normPath dest, Node.symlink src) :: fsErase fs dest) := by
    unfold symlinkFs
    rw [fsLookup_fsErase]
  unfold modeDispatch
  rw [hm, hd]
  show (match symlinkFs (removeExisting fs dest) src dest with
        | Except.error e => CsOut.err e (removeExisting fs dest) w
        | Except.ok fs2 => CsOut.ok fs2 w true) =
      CsOut.ok ((normPath dest, Node.symlink src) :: fsErase fs dest) w true
  rw [hre, hsym]

lemma runLoop_dry {cfg : Config} (lines : List (Except IOErr Str)) :
    ∀ (n : Nat) (fs : Fs) (w : World) (ops : Nat) (log : List (Str × Nat × IOErr)),
    cfg.dry = true →
    (runLoop cfg lines n fs w ops log).finalFs = fs ∧
      (runLoop cfg lines n fs w ops log).finalOps = ops := by
  induction lines with
  | nil =>
    intro n fs w ops log hd
    exact ⟨rfl, rfl⟩
  | cons l rest ih =>
    intro n fs w ops log hd
    cases l with
    | error e => exact ⟨rfl, rfl⟩
    | ok s =>
      simp only [runLoop]
      cases hp : process_line cfg fs w s with
      | ok fs' w' performed =>
        have h2 := process_line_dry cfg fs w s hd
        rw [hp] at h2
        have hfs : fs' = fs := h2.1
        have hpf : performed = false := h2.2
        subst hfs
        subst hpf
        exact ih (n + 1) fs' w' ops log hd
      | err e fs' w' =>
        have h2 := process_line_dry cfg fs w s hd
        rw [hp] at h2
        have hfs : fs' = fs := h2.1
        subst hfs
        exact ih (n + 1) fs' w' ops (log ++ [(cfg.file, n + 1, e)]) hd
      | panicked fs' w' =>
        have h2 := process_line_dry cfg fs w s hd
        rw [hp] at h2
        have hfs : fs' = fs := h2.1
        subst hfs
        exact ⟨rfl, rfl⟩

lemma runLoop_ok_no_abort {cfg : Config} (lines : List (Except IOErr Str)) :
    ∀ (n : Nat) (fs : Fs) (w : World) (ops : Nat) (log : List (Str × Nat × IOErr)),
    (∀ l ∈ lines, exceptIsOk l = true) →
    (runLoop cfg lines n fs w ops log).aborted = false := by
  induction lines with
  | nil =>
    intro n fs w ops log _
    rfl
  | cons l rest ih =>
    intro n fs w ops log h
    cases l with
    | error e =>
      have hbad := h (Except.error e) (List.mem_cons_self _ _)
      simp [exceptIsOk] at hbad
    | ok s =>
      have hrest : ∀ l ∈ rest, exceptIsOk l = true :=
        fun l hl => h l (List.mem_cons_of_mem _ hl)
      simp only [runLoop]
      cases hp : process_line cfg fs w s with
      | ok fs' w' performed =>
        exact ih (n + 1) fs' w' (ops + (if performed then 1 else 0)) log hrest
      | err e fs' w' =>
        exact ih (n + 1) fs' w' ops (log ++ [(cfg.file, n + 1, e)]) hrest
      | panicked fs' w' => rfl

/-- Fixture filesystem: `/d/a` is a symlink to the existing file `/a`. -/
def fsLinked : Fs :=
  [(destDA, Node.symlink srcA), (dirD, Node.dir), (srcA, Node.file (str "x"))]

/-- Fixture filesystem: `/d/a` is a regular file with the same content
as `/a`. -/
def fsIdent : Fs :=
  [(destDA, Node.file (str "x")), (dirD, Node.dir), (srcA, Node.file (str "x"))]

/-- A Create-mode, dry-run configuration rooted at `/`. -/
def cfgCrDry : Config :=
  ⟨str ".neostow", rootP, Mode.create, false, false, true, false, []⟩

/-- A Create-mode configuration whose base directory is `/base`. -/
def cfgDotDot : Config :=
  ⟨str ".neostow", ⟨true, [PComp.normal (str "base")]⟩, Mode.create,
   false, false, false, false, []⟩

/-- Fixture filesystem containing only the root directory. -/
def fsRootOnly : Fs := [(rootP, Node.dir)]

/-! ### Claim theorems -/

/-- Claim C1, counterexample: a read error on a manifest line is NOT
caught at the run-loop boundary — `line?` propagates it out of `run`,
aborting the whole run with no log entry, before the following
(processable) line is reached.  The claim's "a read error on a single
manifest line never aborts the run" is false. -/
theorem c1_read_error_aborts :
    run cfgDel [Except.error IOErr.readFail, Except.ok (str "a=/d")] fsNoDest wQuiet =
      RunOut.ioerr fsNoDest wQuiet 0 [] IOErr.readFail := rfl

/-- Claim C1, amended: an error raised while processing a line through
the parse/expand/reconcile pipeline is caught, logged with the manifest
path and 1-indexed line number, and processing continues; consequently
a run all of whose line reads succeed never aborts with an I/O error.
A read error on a manifest line, however, aborts the run. -/
theorem c1_pipeline_errors_never_abort (cfg : Config) (lines : List (Except IOErr Str))
    (fs : Fs) (w : World) (h : ∀ l ∈ lines, exceptIsOk l = true) :
    (run cfg lines fs w).aborted = false :=
  runLoop_ok_no_abort lines 0 fs w 0 [] h

/-- Witness for C1: a concrete dry-run Overwrite run whose single entry
raises a diff-spawn error still completes without aborting. -/
theorem c1_witness :
    (run cfgOwDry [Except.ok (str "a=/d"), Except.ok (str "a=/d")] fsConflict
      ⟨[], false⟩).aborted = false :=
  c1_pipeline_errors_never_abort cfgOwDry
    [Except.ok (str "a=/d"), Except.ok (str "a=/d")] fsConflict ⟨[], false⟩ (by decide)

/-- Claim C2, counterexample: a Delete-mode entry whose destination does
not exist performs no filesystem mutation (the final filesystem equals
the initial one) yet the operation counter is incremented to 1, because
`create_symlink`'s Delete arm falls through to `Ok(true)`. -/
theorem c2_no_mutation_still_counts :
    run cfgDel [Except.ok (str "a=/d")] fsNoDest wQuiet =
      RunOut.done fsNoDest wQuiet 1 [] := rfl

/-- Claim C2, amended: the counter is incremented once per entry for
which `create_symlink` returns `Ok(true)`; in non-dry Delete mode this
includes every entry that reaches mode dispatch, so an entry whose
destination does not exist increments the counter while leaving the
filesystem untouched. -/
theorem c2_delete_missing_dest_performed (cfg : Config) (src dest : RPath)
    (is_dir : Bool) (fs : Fs) (w : World)
    (hm : cfg.mode = Mode.delete) (hd : cfg.dry = false) (hs : stat fs dest = none) :
    create_symlink cfg src dest is_dir fs w = CsOut.ok fs w true :=
  delete_missing_dest src dest is_dir fs w hm hd hs

/-- Witness for C2 at a concrete Delete entry with an absent destination. -/
theorem c2_witness :
    create_symlink cfgDel srcA destDA false fsNoDest wQuiet =
      CsOut.ok fsNoDest wQuiet true :=
  c2_delete_missing_dest_performed cfgDel srcA destDA false fsNoDest wQuiet rfl rfl rfl

/-- Claim C3, confirmed: with the dry flag set, a whole run leaves the
filesystem exactly as it was and the operation count reported at the
end is 0, whatever the mode, the manifest lines, and the world. -/
theorem c3_dry_run_no_mutation_zero_count (cfg : Config)
    (lines : List (Except IOErr Str)) (fs : Fs) (w : World) (hd : cfg.dry = true) :
    (run cfg lines fs w).finalFs = fs ∧ (run cfg lines fs w).finalOps = 0 :=
  runLoop_dry lines 0 fs w 0 [] hd

/-- Witness for C3: a concrete dry Overwrite run over a conflicting
entry (which even errors on the diff subprocess) and a read error. -/
theorem c3_witness :
    (run cfgOwDry [Except.ok (str "a=/d"), Except.error IOErr.readFail] fsConflict
        ⟨[], false⟩).finalFs = fsConflict ∧
    (run cfgOwDry [Except.ok (str "a=/d"), Except.error IOErr.readFail] fsConflict
        ⟨[], false⟩).finalOps = 0 :=
  c3_dry_run_no_mutation_zero_count cfgOwDry
    [Except.ok (str "a=/d"), Except.error IOErr.readFail] fsConflict ⟨[], false⟩ rfl

/-- Claim C4, counterexample: in dry-run Overwrite mode, an entry whose
destination exists as a non-symlink still runs the conflict check, so a
diff-subprocess launch failure raises a per-entry error — dry-run does
NOT make entry processing error-free. -/
theorem c4_dry_overwrite_subprocess_error :
    process_line cfgOwDry fsConflict ⟨[], false⟩ (str "a=/d") =
      LineOut.err IOErr.spawnFail fsConflict ⟨[], false⟩ := rfl

/-- Claim C4, amended: dry-run never mutates the filesystem (no
mutating syscall, directory creation skipped), and in Create and Delete
modes a dry-run entry never raises an error; only Overwrite mode can
still error in dry-run, through the conflict check's diff subprocess
or prompt. -/
theorem c4_dry_no_mutation_no_error_outside_overwrite (cfg : Config) (fs : Fs)
    (w : World) (line : Str) (hd : cfg.dry = true) :
    (process_line cfg fs w line).fsOf = fs ∧
      (cfg.mode ≠ Mode.overwrite → (process_line cfg fs w line).isErr = false) := by
  refine ⟨(process_line_dry cfg fs w line hd).1, fun hm => ?_⟩
  unfold process_line
  cases hp : parse_line line with
  | none => rfl
  | some pq =>
    obtain ⟨p0, p1⟩ := pq
    exact processEntry_dry_not_ow fs w p0 p1 hd hm

/-- Witness for C4 at a concrete dry Create entry over an existing
conflicting destination. -/
theorem c4_witness :
    (process_line cfgCrDry fsConflict wQuiet (str "a=/d")).fsOf = fsConflict ∧
      (cfgCrDry.mode ≠ Mode.overwrite →
        (process_line cfgCrDry fsConflict wQuiet (str "a=/d")).isErr = false) :=
  c4_dry_no_mutation_no_error_outside_overwrite cfgCrDry fsConflict wQuiet
    (str "a=/d") rfl

/-- Claim C5, counterexample: the destination is a symlink (dangling),
yet a non-dry Delete run removes nothing — `dest.exists()` follows the
link, reports false, and the removal branch is skipped.  The claim's
"for every entry whose destination is a symlink the symlink is removed"
is false. -/
theorem c5_dangling_symlink_left_in_place :
    fsLookup fsDangling destDA =
      some (Node.symlink ⟨true, [PComp.normal (str "nowhere")]⟩) ∧
    run cfgDel [Except.ok (str "a=/d")] fsDangling wQuiet =
      RunOut.done fsDangling wQuiet 1 [] := ⟨rfl, rfl⟩

/-- Claim C5, amended: in non-dry Delete mode, a destination symlink
whose target exists is removed (the link itself, whatever its target —
matching the source is never required); a destination that does not
exist (a dangling symlink included) is left untouched with no error;
and no entry ever adds anything to the filesystem. -/
theorem c5_delete_mode_behavior (cfg : Config) (src dest : RPath) (is_dir : Bool)
    (fs : Fs) (w : World) (hm : cfg.mode = Mode.delete) (hd : cfg.dry = false) :
    (∀ t, fsLookup fs dest = some (Node.symlink t) → fsExists fs dest = true →
      create_symlink cfg src dest is_dir fs w = CsOut.ok (fsErase fs dest) w true) ∧
    (stat fs dest = none → create_symlink cfg src dest is_dir fs w = CsOut.ok fs w true) ∧
    (∀ x, x ∈ (create_symlink cfg src dest is_dir fs w).fsOf → x ∈ fs) :=
  ⟨fun t hl he => delete_symlink_removed src dest is_dir fs w t hm hd hl he,
   fun hs => delete_missing_dest src dest is_dir fs w hm hd hs,
   fun x hx => create_symlink_delete_subset cfg src dest is_dir fs w hm x hx⟩

/-- Witness for C5: deleting a concrete symlink destination whose
target exists removes exactly that entry. -/
theorem c5_witness :
    create_symlink cfgDel srcA destDA false fsLinked wQuiet =
      CsOut.ok (fsErase fsLinked destDA) wQuiet true :=
  (c5_delete_mode_behavior cfgDel srcA destDA false fsLinked wQuiet rfl rfl).1
    srcA rfl rfl

/-- Claim C6, confirmed: in non-dry Overwrite mode with a working diff,
an entry whose destination is a non-symlink file with the same content
as the source is replaced silently: the comparison reports identical
(prompt not warranted), no stdin is consumed, the file is removed, a
symlink to the source is created, and the entry reports performed
(counter +1). -/
theorem c6_overwrite_identical_silent_replace (cfg : Config) (src dest : RPath)
    (is_dir : Bool) (fs : Fs) (w : World) (b : Str)
    (hm : cfg.mode = Mode.overwrite) (hd : cfg.dry = false) (hw : w.diffOk = true)
    (hlb : fsLookup fs dest = some (Node.file b))
    (hsa : stat fs src = some (Node.file b)) :
    create_symlink cfg src dest is_dir fs w =
      CsOut.ok ((normPath dest, Node.symlink src) :: fsErase fs dest) w true := by
  have hsd : stat fs dest = some (Node.file b) := stat_lookup_nonsymlink hlb rfl
  have he : fsExists fs dest = true := by
    unfold fsExists
    rw [hsd]
    rfl
  have hdir : fsIsDir fs dest = false := by
    unfold fsIsDir
    rw [hsd]
  have hdiff : diffIdentical fs src dest = true := by
    unfold diffIdentical
    rw [hsa, hsd]
    simp
  have hgate : overwriteGate cfg src dest is_dir fs w = Phase.cont w := by
    unfold overwriteGate run_diff
    rw [he, hlb, hw]
    simp [nodeIsSymlink, hm, hdiff]
  unfold create_symlink
  rw [hgate]
  show modeDispatch cfg src dest fs w = _
  exact modeDispatch_ow_nonsym src dest fs w hm hd hdir he

/-- Witness for C6 at a concrete identical-content conflict. -/
theorem c6_witness :
    create_symlink cfgOw srcA destDA false fsIdent wQuiet =
      CsOut.ok ((normPath destDA, Node.symlink srcA) :: fsErase fsIdent destDA)
        wQuiet true :=
  c6_overwrite_identical_silent_replace cfgOw srcA destDA false fsIdent wQuiet
    (str "x") rfl rfl rfl rfl rfl

/-- Claim C7, counterexample: with the environment iterated as
`A="$B"`, `B="x"`, expanding `"$A"` yields `"x"`: the `$B` token, which
occurs only inside A's substituted value (not in the raw input), was
re-expanded instead of being left verbatim.  The claim's "never
recursively re-expands substituted text" is false. -/
theorem c7_reexpansion_of_substituted_text :
    expand_path [(str "A", str "$B"), (str "B", str "x")] (str "$A") = str "x" ∧
    hasSub (str "$B") (str "$A") = false ∧
    hasSub (str "$B") (str "$B") = true ∧
    hasSub (str "$B")
      (expand_path [(str "A", str "$B"), (str "B", str "x")] (str "$A")) = false :=
  ⟨rfl, rfl, rfl, rfl⟩

/-- Claim C7, amended: expansion folds `String::replace` over the
environment in its (unspecified) iteration order, applying each defined
variable exactly once; text introduced by an earlier substitution IS
subject to substitution by variables later in the order, so whether a
`$NAME` token inside a substituted value survives depends on that
order: `A` before `B` expands `"$A"` all the way to `"x"`, `B` before
`A` leaves `"$B"`. -/
theorem c7_order_dependent_expansion :
    expand_path [(str "A", str "$B"), (str "B", str "x")] (str "$A") = str "x" ∧
    expand_path [(str "B", str "x"), (str "A", str "$B")] (str "$A") = str "$B" :=
  ⟨rfl, rfl⟩

/-- Claim C8, counterexample: a failure reading standard input at the
overwrite-confirmation prompt is NOT treated as a decline — it
propagates out of `prompt_user` via `?` and becomes a per-entry error.
The claim's "a failure reading standard input is treated as a decline
(a benign skip, not an error)" is false. -/
theorem c8_stdin_failure_is_error :
    create_symlink cfgOw srcA destDA false fsConflict
        ⟨[Except.error IOErr.stdinFail], true⟩ =
      CsOut.err IOErr.stdinFail fsConflict ⟨[], true⟩ := rfl

/-- Claim C8, amended: at the overwrite-confirmation prompt (destination
a non-symlink file differing from the source, force off), a
successfully read answer proceeds exactly when it trims and lowercases
to `y` or `yes`; any other successfully read input (empty included) is
a benign decline — the entry is skipped with no mutation and no error;
but a stdin read failure propagates as a per-entry error. -/
theorem c8_prompt_contract (cfg : Config) (src dest : RPath) (is_dir : Bool)
    (fs : Fs) (w : World) (a b : Str) (r : Except IOErr Str)
    (rest : List (Except IOErr Str))
    (hm : cfg.mode = Mode.overwrite) (hd : cfg.dry = false) (hf : cfg.force = false)
    (hw : w.diffOk = true) (hst : w.stdin = r :: rest)
    (hlb : fsLookup fs dest = some (Node.file b))
    (hsa : stat fs src = some (Node.file a)) (hne : (a == b) = false) :
    (∀ e, r = Except.error e →
      create_symlink cfg src dest is_dir fs w = CsOut.err e fs ⟨rest, true⟩) ∧
    (∀ s, r = Except.ok s → isYes s = false →
      create_symlink cfg src dest is_dir fs w = CsOut.ok fs ⟨rest, true⟩ false) ∧
    (∀ s, r = Except.ok s → isYes s = true →
      create_symlink cfg src dest is_dir fs w =
        CsOut.ok ((normPath dest, Node.symlink src) :: fsErase fs dest)
          ⟨rest, true⟩ true) := by
  have hsd : stat fs dest = some (Node.file b) := stat_lookup_nonsymlink hlb rfl
  have he : fsExists fs dest = true := by
    unfold fsExists
    rw [hsd]
    rfl
  have hdir : fsIsDir fs dest = false := by
    unfold fsIsDir
    rw [hsd]
  have hdiff : diffIdentical fs src dest = false := by
    unfold diffIdentical
    rw [hsa, hsd]
    simpa using hne
  refine ⟨?_, ?_, ?_⟩
  · intro e hr
    subst hr
    have hgate : overwriteGate cfg src dest is_dir fs w =
        Phase.early (CsOut.err e fs ⟨rest, w.diffOk⟩) := by
      unfold overwriteGate run_diff prompt_user
      rw [he, hlb, hw, hst]
      simp [nodeIsSymlink, hm, hdiff, hf]
    unfold create_symlink
    rw [hgate, hw]
  · intro s hr hyes
    subst hr
    have hgate : overwriteGate cfg src dest is_dir fs w =
        Phase.early (CsOut.ok fs ⟨rest, w.diffOk⟩ false) := by
      unfold overwriteGate run_diff prompt_user
      rw [he, hlb, hw, hst]
      simp [nodeIsSymlink, hm, hdiff, hf, hyes]
    unfold create_symlink
    rw [hgate, hw]
  · intro s hr hyes
    subst hr
    have hgate : overwriteGate cfg src dest is_dir fs w =
        Phase.cont ⟨rest, w.diffOk⟩ := by
      unfold overwriteGate run_diff prompt_user
      rw [he, hlb, hw, hst]
      simp [nodeIsSymlink, hm, hdiff, hf, hyes]
    unfold create_symlink
    rw [hgate, hw]
    show modeDispatch cfg src dest fs ⟨rest, true⟩ = _
    exact modeDispatch_ow_nonsym src dest fs ⟨rest, true⟩ hm hd hdir he

/-- Witness for C8: a concrete declined prompt ("n") skips the entry
benignly, leaving the filesystem unchanged. -/
theorem c8_witness :
    create_symlink cfgOw srcA destDA false fsConflict
        ⟨[Except.ok (str "n")], true⟩ =
      CsOut.ok fsConflict ⟨[], true⟩ false :=
  (c8_prompt_contract cfgOw srcA destDA false fsConflict
      ⟨[Except.ok (str "n")], true⟩ (str "x") (str "y") (Except.ok (str "n")) []
      rfl rfl rfl rfl rfl rfl rfl rfl).2.1 (str "n") rfl rfl

/-- Claim C10, confirmed: the manifest line `.. = /tmp` under base
directory `/base` yields a joined source `/base/..` that exists on disk
(it resolves to `/`) yet has no final filename component, so
`process_line` reaches `src.file_name().unwrap()` with `None` and
panics — the unwrap's failure branch is reachable from the public
interface. -/
theorem c10_dotdot_source_panics :
    fsExists fsRootOnly (cfgDotDot.basedir.join (parseRPath (str ".."))) = true ∧
    (cfgDotDot.basedir.join (parseRPath (str ".."))).fileName = none ∧
    process_line cfgDotDot fsRootOnly wQuiet (str ".. = /tmp") =
      LineOut.panicked fsRootOnly wQuiet :=
  ⟨rfl, rfl, rfl⟩

/-! ### Parsing lemmas for C9 -/

lemma splitFirstEq_not_mem {t : Str} (h : '=' ∉ t) : splitFirstEq t = none := by
  induction t with
  | nil => rfl
  | cons c rest ih =>
    have hc : c ≠ '=' := fun hcc => h (hcc ▸ List.mem_cons_self c rest)
    have hr : '=' ∉ rest := fun hm => h (List.mem_cons_of_mem _ hm)
    unfold splitFirstEq
    rw [if_neg hc, ih hr]
    rfl

lemma splitFirstEq_mem {t : Str} (h : '=' ∈ t) :
    splitFirstEq t =
      some (t.takeWhile (fun c => !(c == '=')),
            (t.dropWhile (fun c => !(c == '='))).drop 1) := by
  induction t with
  | nil => cases h
  | cons c rest ih =>
    by_cases hc : c = '='
    · subst hc
      unfold splitFirstEq
      rw [if_pos rfl]
      simp
    · have hr : '=' ∈ rest := by
        cases List.mem_cons.mp h with
        | inl h0 => exact absurd h0.symm hc
        | inr h0 => exact h0
      have hcb : (c == '=') = false := by simpa using hc
      unfold splitFirstEq
      rw [if_neg hc, ih hr]
      simp [hcb]

lemma not_p_mem_take_findIdx {p : Char → Bool} :
    ∀ (t : Str) (i : Nat), t.findIdx? p = some i → ∀ x ∈ t.take i, p x = false := by
  intro t
  induction t with
  | nil =>
    intro i h x hx
    simp at h
  | cons a l ih =>
    intro i h x hx
    rw [List.findIdx?_cons] at h
    by_cases hpa : p a = true
    · rw [if_pos hpa] at h
      injection h with h0
      subst h0
      cases hx
    · rw [if_neg hpa] at h
      have h1 : l.findIdx? p 1 = (l.findIdx? p).map (fun i => i + 1) :=
        List.findIdx?_succ
      rw [h1] at h
      cases hf : l.findIdx? p with
      | none =>
        rw [hf] at h
        simp at h
      | some j =>
        rw [hf] at h
        simp only [Option.map_some'] at h
        injection h with h0
        subst h0
        rw [List.take_succ_cons] at hx
        cases List.mem_cons.mp hx with
        | inl h0 =>
          subst h0
          simpa using hpa
        | inr h0 => exact ih j hf x h0

lemma trimRight_cons (c : Char) (rest : Str) :
    trimRight (c :: rest) =
      if trimRight rest = [] then (if isWs c then [] else [c])
      else c :: trimRight rest := rfl

lemma mem_trimRight {x : Char} : ∀ {s : Str}, x ∈ trimRight s → x ∈ s := by
  intro s
  induction s with
  | nil =>
    intro h
    exact absurd h (List.not_mem_nil x)
  | cons c rest ih =>
    intro h
    rw [trimRight_cons] at h
    by_cases h0 : trimRight rest = []
    · rw [if_pos h0] at h
      by_cases hws : isWs c = true
      · rw [if_pos hws] at h
        exact absurd h (List.not_mem_nil x)
      · rw [if_neg hws] at h
        cases List.mem_cons.mp h with
        | inl h1 => exact h1 ▸ List.mem_cons_self c rest
        | inr h1 => exact absurd h1 (List.not_mem_nil x)
    · rw [if_neg h0] at h
      cases List.mem_cons.mp h with
      | inl h1 => exact h1 ▸ List.mem_cons_self c rest
      | inr h1 => exact List.mem_cons_of_mem _ (ih h1)

lemma mem_trim {x : Char} {s : Str} (h : x ∈ trim s) : x ∈ s :=
  (List.dropWhile_sublist isWs).subset (mem_trimRight h)

lemma truncLine_no_hash {c : Char} {ts : Str} (hc : c ≠ '#') :
    ∀ x ∈ truncLine (c :: ts), x ≠ '#' := by
  intro x hx
  unfold truncLine at hx
  cases hf : (c :: ts).findIdx? (fun a => a == '#') with
  | none =>
    rw [hf] at hx
    have := List.findIdx?_eq_none_iff.mp hf x hx
    simpa using this
  | some i =>
    rw [hf] at hx
    have hx2 : x ∈ (if 0 < i then trim ((c :: ts).take i) else (c :: ts)) := hx
    by_cases hi : 0 < i
    · rw [if_pos hi] at hx2
      have hx' := mem_trim hx2
      have := not_p_mem_take_findIdx (c :: ts) i hf x hx'
      simpa using this
    · exfalso
      have h0 : i = 0 := by omega
      subst h0
      rw [List.findIdx?_cons] at hf
      by_cases hpc : (c == '#') = true
      · exact hc (by simpa using hpc)
      · rw [if_neg hpc] at hf
        have h1 : ts.findIdx? (fun a => a == '#') 1 =
            (ts.findIdx? (fun a => a == '#')).map (fun i => i + 1) :=
          List.findIdx?_succ
        rw [h1] at hf
        cases hg : ts.findIdx? (fun a => a == '#') with
        | none =>
          rw [hg] at hf
          simp at hf
        | some j =>
          rw [hg] at hf
          simp at hf

lemma truncSpec_eq_truncLine (t : Str) : truncSpec t = truncLine t := rfl

lemma parseTrimmed_eq_spec_core (t : Str) : parseTrimmed t = parse_line_spec_core t := by
  cases t with
  | nil => rfl
  | cons c ts =>
    by_cases hc : c = '#'
    · subst hc
      rfl
    · unfold parseTrimmed parse_line_spec_core
      simp only [truncSpec_eq_truncLine]
      have hcnd : ((c :: ts).isEmpty || ((c :: ts).head? == some '#')) = false := by
        simp [hc]
      rw [hcnd]
      cases htt : truncLine (c :: ts) with
      | nil => rfl
      | cons d ds =>
        have hd : d ≠ '#' := by
          have hmem : d ∈ truncLine (c :: ts) := by
            rw [htt]
            exact List.mem_cons_self d ds
          exact truncLine_no_hash hc d hmem
        by_cases he : '=' ∈ d :: ds
        · have hcond : (d :: ds) ≠ [] ∧ ((d :: ds).head? ≠ some '#') ∧ '=' ∈ d :: ds :=
            ⟨List.cons_ne_nil d ds, by simp [hd], he⟩
          rw [splitFirstEq_mem he, if_pos hcond]
          rfl
        · have hncond : ¬((d :: ds) ≠ [] ∧ ((d :: ds).head? ≠ some '#') ∧ '=' ∈ d :: ds) :=
            fun h => he h.2.2
          rw [splitFirstEq_not_mem he, if_neg hncond]
          rfl

/-- Claim C9, confirmed: for every input line, the implemented parsing
(`parse_line`, from src/main.rs:186-206) agrees exactly with the spec's
description: an entry results iff, after trimming and truncating at an
inline `#` occurring after position 0, the line is non-empty, does not
start with `#`, and contains an `=`; its fields are the trimmed
substrings on either side of the first `=` of the truncated line, and
`=`-free lines are silently dropped. -/
theorem c9_parse_line_matches_spec (line : Str) :
    parse_line line = parse_line_spec line :=
  parseTrimmed_eq_spec_core (trim line)

end Neostow
